import Mathlib

/-!
Shallow embedding of the reservation scheduling and table-allocation engine of
`app/database/reservation_repository.py` (class `ReservationRepository`), together
with the storage primitives it uses.

Modelling conventions:
* Machine strings stay `String`; party sizes, capacities and durations are `Int`
  (Python ints); calendar arithmetic is `Nat` day/minute counts via the standard
  civil-calendar conversion that `datetime` implements.
* The wall clock `datetime.now(UTC)` is passed in explicitly as `nowMicro`, the
  current time in microseconds since 0000-03-01 (the epoch of `dayNumber` below);
  only its order relative to reservation datetimes is ever used.
* Timestamp-only attributes of stored items (`created_at`, `updated_at`, `ttl`),
  the `entity_type` tags and the GSI mirror keys are omitted: no control flow of
  the embedded code reads them.
* Python `datetime.strptime` failures raise; fallible paths therefore return
  `Option` results, `none` standing for an uncaught exception.
-/

namespace ReservAI

/-! ## Calendar arithmetic (the fragment of `datetime` the source uses) -/

/-- Leap-year test of the proleptic Gregorian calendar. -/
def isLeap (y : Nat) : Bool :=
  (y % 4 == 0 && y % 100 != 0) || (y % 400 == 0)

/-- Number of days in month `m` of year `y` (months are 1-based). -/
def daysInMonth (y m : Nat) : Nat :=
  if m = 2 then (if isLeap y then 29 else 28)
  else if m = 4 ∨ m = 6 ∨ m = 9 ∨ m = 11 then 30
  else 31

/-- Day count of the civil date `(y, m, d)` with day 0 at 0000-03-01
(the standard days-from-civil conversion, valid for `y ≥ 1`). -/
def dayNumber (y m d : Nat) : Nat :=
  let y' := if m ≤ 2 then y - 1 else y
  let era := y' / 400
  let yoe := y' % 400
  let mp := (m + 9) % 12
  let doy := (153 * mp + 2) / 5 + d - 1
  let doe := yoe * 365 + yoe / 4 - yoe / 100 + doy
  era * 146097 + doe

/-- Inverse of `dayNumber`: civil date `(y, m, d)` of a day count. -/
def civilOfDayNumber (z : Nat) : Nat × Nat × Nat :=
  let era := z / 146097
  let doe := z % 146097
  let yoe := (doe - doe / 1460 + doe / 36524 - doe / 146096) / 365
  let y' := yoe + era * 400
  let doy := doe - (365 * yoe + yoe / 4 - yoe / 100)
  let mp := (5 * doy + 2) / 153
  let d := doy - (153 * mp + 2) / 5 + 1
  let m := if mp < 10 then mp + 3 else mp - 9
  (if m ≤ 2 then y' + 1 else y', m, d)

/-- Python `date.weekday()`: Monday = 0 … Sunday = 6.
1970-01-01 (`dayNumber` 719468) was a Thursday (= 3). -/
def weekdayOf (y m d : Nat) : Nat :=
  (dayNumber y m d + 2) % 7

/-! ## String helpers (structural recursion so everything kernel-evaluates) -/

/-- Split a character list on a separator character; mirrors `str.split(sep)`
for a one-character separator. -/
def splitOnChar (c : Char) : List Char → List (List Char)
  | [] => [[]]
  | x :: xs =>
    if x = c then [] :: splitOnChar c xs
    else
      match splitOnChar c xs with
      | [] => [[x]]
      | g :: gs => (x :: g) :: gs

/-- Whether `pat` occurs at the head of `l`. -/
def startsWithL : List Char → List Char → Bool
  | [], _ => true
  | _ :: _, [] => false
  | a :: as, b :: bs => (a = b : Bool) && startsWithL as bs

/-- Whether `pat` occurs as a contiguous run inside `l`; mirrors Python `in`. -/
def containsL (pat : List Char) : List Char → Bool
  | [] => pat.isEmpty
  | x :: xs => startsWithL pat (x :: xs) || containsL pat xs

/-- Lowercase a character: ASCII plus the accented letter appearing in the
source's zone patterns (`"salón"`). -/
def lowerChar (c : Char) : Char :=
  if c = 'Ó' then 'ó' else c.toLower

/-- Mirrors `str.lower()` on the alphabet the source compares. -/
def lowerStr (s : String) : String :=
  ⟨s.data.map lowerChar⟩

/-- Digit character for `n < 10`. -/
def digitChar (n : Nat) : Char :=
  Char.ofNat (48 + n)

/-- Two-digit zero-padded decimal rendering (values below 100). -/
def pad2 (n : Nat) : String :=
  ⟨[digitChar (n / 10 % 10), digitChar (n % 10)]⟩

/-- Four-digit zero-padded decimal rendering (values below 10000). -/
def pad4 (n : Nat) : String :=
  ⟨[digitChar (n / 1000 % 10), digitChar (n / 100 % 10),
    digitChar (n / 10 % 10), digitChar (n % 10)]⟩

/-- Value of a run of decimal digits. -/
def digitsVal : List Char → Nat → Nat
  | [], acc => acc
  | c :: cs, acc => digitsVal cs (acc * 10 + (c.toNat - 48))

/-- Numeric field of one or two digits whose value lies in `[lo, hi]`;
mirrors the `strptime` field patterns for `%m`, `%d`, `%H`, `%M`. -/
def fieldVal (l : List Char) (lo hi : Nat) : Option Nat :=
  if (l.length = 1 ∨ l.length = 2) ∧ l.all Char.isDigit then
    let v := digitsVal l 0
    if lo ≤ v ∧ v ≤ hi then some v else none
  else none

/-! ## Parsing and formatting of the `%Y-%m-%d` / `%H:%M` formats -/

/-- `datetime.strptime(s, "%Y-%m-%d")`: four-digit year, 1- or 2-digit month
and day, with the constructor's range checks (`MINYEAR = 1`, day fits month). -/
def parseDate (s : String) : Option (Nat × Nat × Nat) :=
  match splitOnChar '-' s.data with
  | [ys, ms, ds] =>
    if ys.length = 4 ∧ ys.all Char.isDigit then
      let y := digitsVal ys 0
      if y = 0 then none
      else
        match fieldVal ms 1 12 with
        | none => none
        | some m =>
          match fieldVal ds 1 31 with
          | none => none
          | some d => if d ≤ daysInMonth y m then some (y, m, d) else none
    else none
  | _ => none

/-- `datetime.strptime(s, "%H:%M")`. -/
def parseTime (s : String) : Option (Nat × Nat) :=
  match splitOnChar ':' s.data with
  | [hs, ms] =>
    match fieldVal hs 0 23, fieldVal ms 0 59 with
    | some h, some mi => some (h, mi)
    | _, _ => none
  | _ => none

/-- `d.strftime("%Y-%m-%d")`. -/
def formatDate (y m d : Nat) : String :=
  pad4 y ++ "-" ++ pad2 m ++ "-" ++ pad2 d

/-- `d.strftime("%H:%M")`. -/
def formatTime (h mi : Nat) : String :=
  pad2 h ++ ":" ++ pad2 mi

/-- Minutes since 0000-03-01 00:00 of the datetime `(y,m,d,h,mi)`. -/
def totalMinutes (y m d h mi : Nat) : Nat :=
  dayNumber y m d * 1440 + h * 60 + mi

/-- Render the datetime at minute count `t` as the slot key
`"%Y-%m-%d#%H:%M"` used by `_slot_keys`. -/
def minutesToSlotKey (t : Nat) : String :=
  let z := t / 1440
  let rem := t % 1440
  match civilOfDayNumber z with
  | (y, m, d) => formatDate y m d ++ "#" ++ formatTime (rem / 60) (rem % 60)

/-! ## Data model -/

/-- A table-catalog record (`TABLE#id / META` items; see `DEFAULT_TABLES`). -/
structure Table where
  table_id : String
  zone : String
  capacity_min : Int
  capacity_max : Int
  priority : Int
  is_active : Bool
deriving DecidableEq, Repr

/-- A slot-occupancy record (`TABLE#table_id / SLOT#slot_key` items), keyed by
`(table_id, slot_key)`. -/
structure SlotRec where
  table_id : String
  slot_key : String
  reservation_id : String
  status : String
deriving DecidableEq, Repr

/-- A reservation record (`RESERVATION#id / DETAILS` items), keyed by `id`. -/
structure Reservation where
  id : String
  date : String
  time : String
  status : String
  num_people : Int
  customer_name : String
  phone : String
  preferences : String
  special_occasion : String
  table_id : String
  table_zone : String
  duration_min : Int
deriving DecidableEq, Repr

/-- A customer-lookup record (`CUSTOMER#phone / RESERVATION#date#time#id` items),
keyed by `(phone, date, time, reservation_id)`. -/
structure CustomerEntry where
  phone : String
  date : String
  time : String
  reservation_id : String
  status : String
deriving DecidableEq, Repr

/-- Modelled from the spec: the backing store of §6 ("Storage contract required
from the backing store"), one association list per entity kind, each list keyed
by the entity's logical key.  The generic `get/put/delete` client methods the
repository calls are not part of the sources under `src/`; their DynamoDB
conditional-write semantics is modelled by the primitives below. -/
structure Store where
  tables : List Table
  slots : List SlotRec
  reservations : List Reservation
  customers : List CustomerEntry
deriving DecidableEq, Repr

/-- `get(key)` on a slot record. -/
def getSlot : List SlotRec → String → String → Option SlotRec
  | [], _, _ => none
  | r :: rest, tid, k =>
    if r.table_id = tid ∧ r.slot_key = k then some r else getSlot rest tid k

/-- `get(key)` on a reservation record. -/
def getRes : List Reservation → String → Option Reservation
  | [], _ => none
  | r :: rest, rid => if r.id = rid then some r else getRes rest rid

/-- `get(key)` on a customer-lookup record. -/
def getCust : List CustomerEntry → String → String → String → String → Option CustomerEntry
  | [], _, _, _, _ => none
  | c :: rest, ph, dt, tm, rid =>
    if c.phone = ph ∧ c.date = dt ∧ c.time = tm ∧ c.reservation_id = rid then some c
    else getCust rest ph dt tm rid

/-- Modelled from the spec: `put(record, condition = attribute_not_exists(PK))`
on a slot record — the insert-only conditional write of §5/§6.  Returns the
store unchanged with `false` when a record with the key already exists. -/
def putSlotNew (s : Store) (rec : SlotRec) : Bool × Store :=
  match getSlot s.slots rec.table_id rec.slot_key with
  | some _ => (false, s)
  | none => (true, { s with slots := rec :: s.slots })

/-- Modelled from the spec: unconditional `delete(key)` of a slot record. -/
def deleteSlot (s : Store) (tid k : String) : Store :=
  { s with slots := s.slots.filter fun r => ¬(r.table_id = tid ∧ r.slot_key = k) }

/-- Modelled from the spec: `delete(key, condition = reservation_id = :rid)` —
the ownership-guarded delete `_release_occupancy` issues; condition failures
are ignored by the caller, so only the store effect is modelled. -/
def deleteSlotOwned (s : Store) (tid k rid : String) : Store :=
  { s with slots :=
      s.slots.filter fun r => ¬(r.table_id = tid ∧ r.slot_key = k ∧ r.reservation_id = rid) }

/-- Modelled from the spec: insert-only conditional `put` of a reservation
record (`attribute_not_exists(PK)`), as issued by `create_reservation`. -/
def putResNew (s : Store) (r : Reservation) : Bool × Store :=
  match getRes s.reservations r.id with
  | some _ => (false, s)
  | none => (true, { s with reservations := r :: s.reservations })

/-- Modelled from the spec: unconditional `put` of a reservation record
(overwrite by key), as issued by `update_reservation`. -/
def putRes (s : Store) (r : Reservation) : Store :=
  { s with reservations := r :: s.reservations.filter fun x => ¬(x.id = r.id) }

/-- Modelled from the spec: unconditional `delete(key)` of a reservation record. -/
def deleteRes (s : Store) (rid : String) : Store :=
  { s with reservations := s.reservations.filter fun x => ¬(x.id = rid) }

/-- Modelled from the spec: unconditional `put` of a customer-lookup record
(overwrite by key). -/
def putCust (s : Store) (c : CustomerEntry) : Store :=
  { s with customers :=
      c :: s.customers.filter fun x =>
        ¬(x.phone = c.phone ∧ x.date = c.date ∧ x.time = c.time ∧
          x.reservation_id = c.reservation_id) }

/-- Modelled from the spec: unconditional `delete(key)` of a customer-lookup
record. -/
def deleteCust (s : Store) (ph dt tm rid : String) : Store :=
  { s with customers :=
      s.customers.filter fun x =>
        ¬(x.phone = ph ∧ x.date = dt ∧ x.time = tm ∧ x.reservation_id = rid) }

/-! ## Repository constants and pure helpers
(`reservation_repository.py`, top of file and private methods) -/

/-- `ACTIVE_STATUSES = {"pending", "confirmed"}`. -/
def isActiveStatus (st : String) : Bool :=
  st = "pending" ∨ st = "confirmed"

/-- `VALID_STATUSES = {"pending", "confirmed", "cancelled"}`. -/
def isValidStatus (st : String) : Bool :=
  st = "pending" ∨ st = "confirmed" ∨ st = "cancelled"

/-- `SLOT_MINUTES`. -/
def SLOT_MINUTES : Nat := 30

/-- `DEFAULT_RESERVATION_DURATION_MINUTES`. -/
def DEFAULT_DURATION : Int := 90

/-- `DEFAULT_TABLES` of `reservation_repository.py`. -/
def defaultTables : List Table :=
  [⟨"S1", "salon", 1, 2, 1, true⟩,
   ⟨"S2", "salon", 1, 2, 2, true⟩,
   ⟨"S3", "salon", 2, 4, 1, true⟩,
   ⟨"S4", "salon", 2, 4, 2, true⟩,
   ⟨"S5", "salon", 4, 6, 1, true⟩,
   ⟨"S6", "salon", 6, 8, 1, true⟩,
   ⟨"T1", "terraza", 1, 2, 1, true⟩,
   ⟨"T2", "terraza", 1, 2, 2, true⟩,
   ⟨"T3", "terraza", 2, 4, 1, true⟩,
   ⟨"T4", "terraza", 2, 4, 2, true⟩,
   ⟨"T5", "terraza", 4, 6, 1, true⟩]

/-- The store after `__init__` / `_seed_tables()` on an empty backing table:
every default table is inserted (each get finds nothing), nothing else exists. -/
def initialStore : Store :=
  { tables := defaultTables, slots := [], reservations := [], customers := [] }

/-- `_normalize_zone`. -/
def normalize_zone (preference : String) : Option String :=
  let pref := lowerStr preference
  if containsL "terraza".data pref.data then some "terraza"
  else if containsL "salon".data pref.data ∨ containsL "salón".data pref.data ∨
          containsL "interior".data pref.data then some "salon"
  else none

/-- `_reservation_duration` (the fixed-default duration policy of this variant). -/
def reservation_duration (_num_people : Int) : Int :=
  DEFAULT_DURATION

/-- Number of slots: `max(1, (duration_minutes + SLOT_MINUTES - 1) // SLOT_MINUTES)`.
Python floor division on a possibly negative duration is `Int.ediv`. -/
def slotCount (duration_minutes : Int) : Nat :=
  (max 1 ((duration_minutes + 29).ediv 30)).toNat

/-- `_slot_keys`: consecutive `"%Y-%m-%d#%H:%M"` keys spaced 30 minutes apart,
starting at `strptime(date + " " + time)`; `none` when parsing raises. -/
def slot_keys (date time : String) (duration_minutes : Int) : Option (List String) :=
  match parseDate date, parseTime time with
  | some (y, m, d), some (h, mi) =>
    let start := totalMinutes y m d h mi
    some ((List.range (slotCount duration_minutes)).map fun i =>
      minutesToSlotKey (start + i * SLOT_MINUTES))
  | _, _ => none

/-- `_validate_date_time` — the Business-Hours Calendar plus the past check.
`nowMicro` is `datetime.now(UTC)` in microseconds on the `totalMinutes` scale. -/
def validate_date_time (nowMicro : Nat) (date time : String) : Bool × String :=
  match parseDate date with
  | none => (false, "Formato de fecha inválido. Usa YYYY-MM-DD")
  | some (y, m, d) =>
    match parseTime time with
    | none => (false, "Formato de hora inválido. Usa HH:MM")
    | some (h, mi) =>
      if ¬(mi = 0 ∨ mi = 30) then
        (false, "Solo hay reservas cada 30 minutos (por ejemplo 20:00 o 20:30)")
      else if totalMinutes y m d h mi * 60000000 < nowMicro then
        (false, "No se pueden crear reservas en fechas/horas pasadas")
      else
        let weekday := weekdayOf y m d
        if weekday = 0 then (false, "El restaurante está cerrado los lunes")
        else if weekday = 1 ∨ weekday = 2 ∨ weekday = 3 then
          if ((13 ≤ h ∧ h < 16) ∨ (h = 16 ∧ mi = 0)) ∨
             ((20 ≤ h ∧ h < 23) ∨ (h = 23 ∧ mi ≤ 30)) then (true, "")
          else (false, "Martes a jueves: 13:00-16:00 y 20:00-23:30")
        else if weekday = 4 ∨ weekday = 5 then
          if (13 ≤ h ∧ h ≤ 23) ∨ (h = 0 ∧ mi = 0) then (true, "")
          else (false, "Viernes y sábado: 13:00-00:00")
        else
          if (13 ≤ h ∧ h < 17) ∨ (h = 17 ∧ mi = 0) then (true, "")
          else (false, "Domingo: 13:00-17:00")

/-! ## Table catalog ordering (`_active_tables`) -/

/-- Code-point lexicographic order on character lists (Python `str` `<=`). -/
def charsLe : List Char → List Char → Bool
  | [], _ => true
  | _ :: _, [] => false
  | a :: as, b :: bs =>
    if a.toNat < b.toNat then true
    else if b.toNat < a.toNat then false
    else charsLe as bs

/-- The sort key of `_active_tables`: ascending `(capacity_max, priority, table_id)`. -/
def tableLe (a b : Table) : Bool :=
  if a.capacity_max ≠ b.capacity_max then a.capacity_max < b.capacity_max
  else if a.priority ≠ b.priority then a.priority < b.priority
  else charsLe a.table_id.data b.table_id.data

/-- Insert into a `le`-sorted list, before the first element not below `x`
(stable insertion sort step). -/
def insertSorted (le : α → α → Bool) (x : α) : List α → List α
  | [] => [x]
  | y :: ys => if le x y then x :: y :: ys else y :: insertSorted le x ys

/-- Stable sort by `le` (Python `sorted`). -/
def sortByLe (le : α → α → Bool) : List α → List α
  | [] => []
  | x :: xs => insertSorted le x (sortByLe le xs)

/-- `_active_tables`: active catalog entries sorted by
`(capacity_max, priority, table_id)`. -/
def active_tables (s : Store) : List Table :=
  sortByLe tableLe (s.tables.filter fun t => t.is_active)

/-! ## Conflict detection and candidate search -/

/-- `_slot_occupied`: a slot blocks iff a record exists at the key, is not owned
by the (truthy) excluded reservation id, and has an active status. -/
def slot_occupied (s : Store) (tid k : String) (rid : Option String) : Bool :=
  match getSlot s.slots tid k with
  | none => false
  | some item =>
    if (match rid with
        | some r => ((¬(r = "") : Bool) && (item.reservation_id = r : Bool) : Bool)
        | none => false) then false
    else isActiveStatus item.status

/-- Every required slot key of a candidate table is free. -/
def allSlotsFree (s : Store) (tid : String) (keys : List String) (rid : Option String) : Bool :=
  keys.all fun k => ¬slot_occupied s tid k rid

/-- First candidate (in catalog order) whose whole span is free. -/
def firstFree (s : Store) (keys : List String) (rid : Option String) : List Table → Option Table
  | [] => none
  | t :: ts => if allSlotsFree s t.table_id keys rid then some t else firstFree s keys rid ts

/-- `_find_table_for_reservation`: compute the slot keys, filter candidates by
capacity, restrict to the preferred zone when it is non-empty, and first-fit.
`none` when `_slot_keys` raises. -/
def find_table_for_reservation (s : Store) (date time : String) (num_people : Int)
    (preferences : String) (duration_minutes : Int) (rid : Option String) :
    Option (Option Table × List String) :=
  match slot_keys date time duration_minutes with
  | none => none
  | some keys =>
    let preferred_zone := normalize_zone preferences
    let candidates := (active_tables s).filter fun t =>
      t.capacity_min ≤ num_people ∧ num_people ≤ t.capacity_max
    let candidates :=
      match preferred_zone with
      | none => candidates
      | some z =>
        let preferred := candidates.filter fun t => t.zone = z
        if preferred.isEmpty then candidates else preferred
    some (firstFree s keys rid candidates, keys)

/-! ## Occupancy commit / rollback / release -/

/-- The occupancy record `_save_occupancy` writes for one slot key
(timestamp and ttl attributes omitted, see the header). -/
def mkSlotRec (tid k : String) (resv : Reservation) : SlotRec :=
  { table_id := tid, slot_key := k, reservation_id := resv.id, status := resv.status }

/-- Conflict message of `_save_occupancy` (an f-string in the source). -/
def slotConflictMsg (k : String) : String :=
  "El slot " ++ k ++ " ya no estaba disponible"

/-- Loop body of `_save_occupancy`: insert-only conditional put per slot key;
on the first failure delete every key created in this attempt (in creation
order) and report the conflict. -/
def save_occupancy_aux (tid : String) (resv : Reservation) :
    List String → Store → List String → Bool × String × Store
  | [], s, _ => (true, "", s)
  | k :: rest, s, created =>
    match putSlotNew s (mkSlotRec tid k resv) with
    | (false, _) =>
      (false, slotConflictMsg k, created.foldl (fun st ck => deleteSlot st tid ck) s)
    | (true, s') => save_occupancy_aux tid resv rest s' (created ++ [k])

/-- `_save_occupancy`. -/
def save_occupancy (s : Store) (tid : String) (keys : List String) (resv : Reservation) :
    Bool × String × Store :=
  save_occupancy_aux tid resv keys s []

/-- `_release_occupancy`: ownership-conditioned delete of each slot key. -/
def release_occupancy (s : Store) (tid : String) (keys : List String) (rid : String) : Store :=
  keys.foldl (fun st k => deleteSlotOwned st tid k rid) s

/-! ## Customer lookup maintenance -/

/-- `_save_customer_lookup`. -/
def save_customer_lookup (s : Store) (resv : Reservation) : Store :=
  putCust s { phone := resv.phone, date := resv.date, time := resv.time,
              reservation_id := resv.id, status := resv.status }

/-- `_delete_customer_lookup`. -/
def delete_customer_lookup (s : Store) (resv : Reservation) : Store :=
  deleteCust s resv.phone resv.date resv.time resv.id

/-! ## `create_reservation` -/

/-- The caller-supplied payload of `create_reservation` (§6 API surface);
optional fields model `payload.get(...)` defaults. -/
structure Payload where
  id : Option String := none
  date : String
  time : String
  num_people : Int
  customer_name : String
  phone : String
  preferences : Option String := none
  special_occasion : Option String := none
  status : Option String := none
  duration_min : Option Int := none
deriving DecidableEq, Repr

/-- `payload.get("id") or f"RES-..."`: Python `or` treats the empty string as
falsy, so a missing or empty id is replaced by the generated one (`freshId`,
the uuid-derived name passed in by the environment). -/
def createResId (freshId : String) (p : Payload) : String :=
  match p.id with
  | some i => if i = "" then freshId else i
  | none => freshId

/-- `payload.get("duration_min") or self._reservation_duration(...)`:
`0` is falsy and falls back to the default duration. -/
def createDuration (p : Payload) : Int :=
  match p.duration_min with
  | some d => if d = 0 then reservation_duration p.num_people else d
  | none => reservation_duration p.num_people

/-- Result quadruple of the repository's mutating operations:
`(ok, message, reservation or None)` plus the store after the call. -/
structure OpResult where
  ok : Bool
  msg : String
  reservation : Option Reservation
  store : Store
deriving DecidableEq, Repr

/-- `create_reservation` (lines 288-346 of `reservation_repository.py`). -/
def create_reservation (s : Store) (nowMicro : Nat) (freshId : String) (p : Payload) :
    Option OpResult :=
  match validate_date_time nowMicro p.date p.time with
  | (false, message) => some ⟨false, message, none, s⟩
  | (true, _) =>
  if p.num_people < 1 ∨ p.num_people > 12 then
    some ⟨false, "El número de personas debe estar entre 1 y 12", none, s⟩
  else
    let reservation_id := createResId freshId p
    let duration := createDuration p
    let resv0 : Reservation :=
      { id := reservation_id, date := p.date, time := p.time,
        num_people := p.num_people, customer_name := p.customer_name,
        phone := p.phone, preferences := p.preferences.getD "",
        special_occasion := p.special_occasion.getD "",
        status := p.status.getD "pending", duration_min := duration,
        table_id := "", table_zone := "" }
    match find_table_for_reservation s resv0.date resv0.time resv0.num_people
        resv0.preferences resv0.duration_min (some reservation_id) with
    | none => none
    | some (none, _) => some ⟨false, "No hay mesas disponibles para ese horario", none, s⟩
    | some (some table, keys) =>
      let resv : Reservation := { resv0 with table_id := table.table_id, table_zone := table.zone }
      match putResNew s resv with
      | (false, _) =>
        some ⟨false, "No se pudo guardar la reserva (puede que el ID ya exista)", none, s⟩
      | (true, s1) =>
        let s2 := save_customer_lookup s1 resv
        if isActiveStatus resv.status then
          match save_occupancy s2 table.table_id keys resv with
          | (true, _, s3) => some ⟨true, "", some resv, s3⟩
          | (false, occupancy_error, s3) =>
            let s4 := deleteRes s3 resv.id
            let s5 := delete_customer_lookup s4 resv
            some ⟨false, occupancy_error, none, s5⟩
        else some ⟨true, "", some resv, s2⟩

/-! ## `update_reservation` and `cancel_reservation` -/

/-- The partial field set of `update_reservation` (§4.6): any subset of the
caller-mutable reservation fields.  The engine-owned fields (`id`, `table_id`,
`table_zone`) are not part of the API surface. -/
structure Updates where
  date : Option String := none
  time : Option String := none
  num_people : Option Int := none
  customer_name : Option String := none
  phone : Option String := none
  preferences : Option String := none
  special_occasion : Option String := none
  status : Option String := none
  duration_min : Option Int := none
deriving DecidableEq, Repr

/-- `merged = {**current, **updates}`. -/
def applyUpdates (c : Reservation) (u : Updates) : Reservation :=
  { c with
    date := u.date.getD c.date,
    time := u.time.getD c.time,
    num_people := u.num_people.getD c.num_people,
    customer_name := u.customer_name.getD c.customer_name,
    phone := u.phone.getD c.phone,
    preferences := u.preferences.getD c.preferences,
    special_occasion := u.special_occasion.getD c.special_occasion,
    status := u.status.getD c.status,
    duration_min := u.duration_min.getD c.duration_min }

/-- Lines 353-356: merge the updates, then force `id` back to the path id and
lowercase the status (`merged["status"] = merged.get("status", "pending").lower()`). -/
def mergedBase (current : Reservation) (rid : String) (u : Updates) : Reservation :=
  { applyUpdates current u with id := rid, status := lowerStr (u.status.getD current.status) }

/-- Lines 364-365: `if not merged.get("duration_min")` — a missing or zero
(falsy) duration falls back to the default. -/
def withDurationDefault (r : Reservation) : Reservation :=
  if r.duration_min = 0 then { r with duration_min := DEFAULT_DURATION } else r

/-- Lines 403-424 of `update_reservation`: release the no-longer-needed old
slots, persist the merged record, relocate the customer-lookup entry.
`new_slot_keys` is empty when no reallocation ran. -/
def update_finish (s : Store) (current merged : Reservation) (new_slot_keys : List String)
    (reservation_id : String) : Option OpResult :=
  let releaseStep : Option Store :=
    if isActiveStatus current.status ∧ ¬(current.table_id = "") then
      match slot_keys current.date current.time current.duration_min with
      | none => none
      | some old_slots =>
        let keep := if current.table_id = merged.table_id then
            new_slot_keys.map (fun k => "SLOT#" ++ k) else []
        let release :=
          if isActiveStatus merged.status then
            old_slots.filter fun k => ¬(keep.contains ("SLOT#" ++ k))
          else old_slots
        some (release_occupancy s current.table_id release reservation_id)
    else some s
  match releaseStep with
  | none => none
  | some s2 =>
    let s3 := putRes s2 merged
    let oldSame := current.phone = merged.phone ∧ current.date = merged.date ∧
        current.time = merged.time
    let s4 := if oldSame then s3
      else deleteCust s3 current.phone current.date current.time reservation_id
    let s5 := save_customer_lookup s4 merged
    some ⟨true, "", some merged, s5⟩

/-- `update_reservation` (lines 348-424 of `reservation_repository.py`). -/
def update_reservation (s : Store) (nowMicro : Nat) (reservation_id : String) (u : Updates) :
    Option OpResult :=
  match getRes s.reservations reservation_id with
  | none => some ⟨false, "No existe la reserva indicada", none, s⟩
  | some current =>
    let mergedB := mergedBase current reservation_id u
    if ¬isValidStatus mergedB.status then
      some ⟨false, "Estado inválido. Usa pending, confirmed o cancelled", none, s⟩
    else if mergedB.num_people < 1 ∨ mergedB.num_people > 12 then
      some ⟨false, "El número de personas debe estar entre 1 y 12", none, s⟩
    else
      let merged := withDurationDefault mergedB
      let target_active := isActiveStatus merged.status
      let date_or_time_changed := ¬(current.date = merged.date) ∨ ¬(current.time = merged.time)
      match (if target_active ∨ date_or_time_changed then
               validate_date_time nowMicro merged.date merged.time
             else (true, "")) with
      | (false, message) => some ⟨false, message, none, s⟩
      | (true, _) =>
        let reallocate := ¬(current.date = merged.date) ∨ ¬(current.time = merged.time) ∨
            ¬(current.num_people = merged.num_people) ∨
            ¬(current.preferences = merged.preferences) ∨ ¬(current.status = merged.status)
        if target_active ∧ reallocate then
          match find_table_for_reservation s merged.date merged.time merged.num_people
              merged.preferences merged.duration_min (some reservation_id) with
          | none => none
          | some (none, _) =>
            some ⟨false, "No hay disponibilidad para los cambios solicitados", none, s⟩
          | some (some table, new_slot_keys) =>
            let merged2 := { merged with table_id := table.table_id, table_zone := table.zone }
            match save_occupancy s merged2.table_id new_slot_keys merged2 with
            | (false, occupancy_error, s') => some ⟨false, occupancy_error, none, s'⟩
            | (true, _, s1) => update_finish s1 current merged2 new_slot_keys reservation_id
        else update_finish s current merged [] reservation_id

/-- `cancel_reservation`: alias for an update setting only the status. -/
def cancel_reservation (s : Store) (nowMicro : Nat) (reservation_id : String) :
    Option OpResult :=
  update_reservation s nowMicro reservation_id { status := some "cancelled" }

/-! ## `available_times` -/

/-- An element of the `available_times` answer. -/
structure AvailEntry where
  time : String
  table_id : String
  zone : String
deriving DecidableEq, Repr

/-- The hard-coded candidate time list of `available_times`. -/
def availableTimesList : List String :=
  ["13:00", "13:30", "14:00", "14:30", "15:00", "15:30", "16:00",
   "20:00", "20:30", "21:00", "21:30", "22:00", "22:30", "23:00", "23:30"]

/-- Loop of `available_times` over the candidate times. -/
def available_times_aux (s : Store) (nowMicro : Nat) (date : String) (num_people : Int)
    (preferred_zone : String) : List String → Option (List AvailEntry)
  | [] => some []
  | t :: rest =>
    if ¬(validate_date_time nowMicro date t).1 then
      available_times_aux s nowMicro date num_people preferred_zone rest
    else
      match find_table_for_reservation s date t num_people preferred_zone
          (reservation_duration num_people) none with
      | none => none
      | some (none, _) => available_times_aux s nowMicro date num_people preferred_zone rest
      | some (some table, _) =>
        (available_times_aux s nowMicro date num_people preferred_zone rest).map
          (fun l => ⟨t, table.table_id, table.zone⟩ :: l)

/-- `available_times` (lines 489-517): probe the fixed time list with the
Calendar validator and the create-path feasibility check; read-only. -/
def available_times (s : Store) (nowMicro : Nat) (date : String) (num_people : Int)
    (preferred_zone : String) : Option (List AvailEntry) :=
  available_times_aux s nowMicro date num_people preferred_zone availableTimesList

/-! ## Invariants -/

/-- Key uniqueness of the Slot Index: no two records share `(table_id, slot_key)`.
This is what the per-record conditional inserts maintain. -/
def SlotsOk (l : List SlotRec) : Prop :=
  l.Pairwise fun a b => ¬(a.table_id = b.table_id ∧ a.slot_key = b.slot_key)

/-- Capacity discipline of committed reservations: party size is within the
validated bounds, and every active reservation with an assigned table sits at a
catalog table whose capacity range contains it. -/
def CapOkL (tables : List Table) (resvs : List Reservation) : Prop :=
  ∀ r ∈ resvs,
    (1 ≤ r.num_people ∧ r.num_people ≤ 12) ∧
    (isActiveStatus r.status → ¬(r.table_id = "") →
      ∃ t ∈ tables, t.table_id = r.table_id ∧
        t.capacity_min ≤ r.num_people ∧ r.num_people ≤ t.capacity_max)

/-! ## Basic lookup lemmas -/

theorem getSlot_eq_none_iff {l : List SlotRec} {tid k : String} :
    getSlot l tid k = none ↔ ∀ r ∈ l, ¬(r.table_id = tid ∧ r.slot_key = k) := by
  induction l with
  | nil => simp [getSlot]
  | cons r rest ih =>
    simp only [getSlot]
    split
    · simp_all
    · simp_all

theorem getSlot_isSome_cons {l : List SlotRec} {r : SlotRec} {tid k : String}
    (h : (getSlot l tid k).isSome) : (getSlot (r :: l) tid k).isSome := by
  simp only [getSlot]
  split <;> simp_all

theorem getSlot_cons_self {l : List SlotRec} {r : SlotRec} {tid k : String}
    (h1 : r.table_id = tid) (h2 : r.slot_key = k) : getSlot (r :: l) tid k = some r := by
  simp [getSlot, h1, h2]

theorem getRes_some {l : List Reservation} {rid : String} {r : Reservation}
    (h : getRes l rid = some r) : r ∈ l ∧ r.id = rid := by
  induction l with
  | nil => simp [getRes] at h
  | cons x rest ih =>
    simp only [getRes] at h
    split at h
    · cases h; simp_all
    · have := ih h; exact ⟨List.mem_cons_of_mem _ this.1, this.2⟩

theorem getRes_eq_none_iff {l : List Reservation} {rid : String} :
    getRes l rid = none ↔ ∀ r ∈ l, ¬(r.id = rid) := by
  induction l with
  | nil => simp [getRes]
  | cons r rest ih =>
    simp only [getRes]
    split
    · simp_all
    · simp_all

theorem getCust_eq_none_iff {l : List CustomerEntry} {ph dt tm rid : String} :
    getCust l ph dt tm rid = none ↔
      ∀ c ∈ l, ¬(c.phone = ph ∧ c.date = dt ∧ c.time = tm ∧ c.reservation_id = rid) := by
  induction l with
  | nil => simp [getCust]
  | cons c rest ih =>
    simp only [getCust]
    split
    · simp_all
    · simp_all

/-! ## Sorting membership -/

theorem mem_insertSorted {le : α → α → Bool} {x a : α} {l : List α} :
    a ∈ insertSorted le x l ↔ a = x ∨ a ∈ l := by
  induction l with
  | nil => simp [insertSorted]
  | cons y ys ih =>
    simp only [insertSorted]
    split
    · simp [List.mem_cons]
    · simp only [List.mem_cons, ih]
      tauto

theorem mem_sortByLe {le : α → α → Bool} {a : α} {l : List α} :
    a ∈ sortByLe le l ↔ a ∈ l := by
  induction l with
  | nil => simp [sortByLe]
  | cons x xs ih =>
    simp only [sortByLe, mem_insertSorted, List.mem_cons, ih]

/-! ## SlotsOk preservation by the primitives -/

theorem slotsOk_filter {l : List SlotRec} {p : SlotRec → Bool} (h : SlotsOk l) :
    SlotsOk (l.filter p) :=
  h.sublist (List.filter_sublist l)

theorem slotsOk_cons {l : List SlotRec} {r : SlotRec}
    (hnone : getSlot l r.table_id r.slot_key = none) (h : SlotsOk l) :
    SlotsOk (r :: l) := by
  refine List.Pairwise.cons ?_ h
  intro b hb hk
  exact (getSlot_eq_none_iff.1 hnone b hb) ⟨hk.1.symm, hk.2.symm⟩

theorem sub_of_getSlot_none {l : List SlotRec} {tid k : String} {r : SlotRec}
    (hnone : getSlot l tid k = none) (hr : r ∈ l) :
    ¬(r.table_id = tid ∧ r.slot_key = k) :=
  getSlot_eq_none_iff.1 hnone r hr

/-! ## `_save_occupancy` lemmas: frame, rollback exactness, key uniqueness -/

theorem foldl_deleteSlot_frame (tid : String) :
    ∀ (created : List String) (s : Store),
      (created.foldl (fun st ck => deleteSlot st tid ck) s).tables = s.tables ∧
      (created.foldl (fun st ck => deleteSlot st tid ck) s).reservations = s.reservations ∧
      (created.foldl (fun st ck => deleteSlot st tid ck) s).customers = s.customers := by
  intro created
  induction created with
  | nil => intro s; exact ⟨rfl, rfl, rfl⟩
  | cons c cs ih =>
    intro s
    simpa [deleteSlot] using ih (deleteSlot s tid c)

theorem foldl_deleteSlot_sub (tid : String) :
    ∀ (created : List String) (s : Store) (r : SlotRec),
      r ∈ (created.foldl (fun st ck => deleteSlot st tid ck) s).slots → r ∈ s.slots := by
  intro created
  induction created with
  | nil => intro s r h; exact h
  | cons c cs ih =>
    intro s r h
    have := ih (deleteSlot s tid c) r h
    simp only [deleteSlot, List.mem_filter] at this
    exact this.1

theorem foldl_deleteSlot_slotsOk (tid : String) :
    ∀ (created : List String) (s : Store), SlotsOk s.slots →
      SlotsOk (created.foldl (fun st ck => deleteSlot st tid ck) s).slots := by
  intro created
  induction created with
  | nil => intro s h; exact h
  | cons c cs ih =>
    intro s h
    exact ih (deleteSlot s tid c) (slotsOk_filter h)

theorem deleteSlot_cons_comm {s : Store} {tid k ck : String} {resv : Reservation}
    (hne : ¬(ck = k)) :
    deleteSlot { s with slots := mkSlotRec tid k resv :: s.slots } tid ck =
      { deleteSlot s tid ck with slots := mkSlotRec tid k resv :: (deleteSlot s tid ck).slots } := by
  simp only [deleteSlot, mkSlotRec, List.filter_cons]
  have : ¬(k = ck) := fun h => hne h.symm
  simp [this]

theorem foldl_deleteSlot_cons_comm {tid k : String} {resv : Reservation} :
    ∀ (created : List String) (s : Store), (∀ ck ∈ created, ¬(ck = k)) →
      created.foldl (fun st ck => deleteSlot st tid ck)
          { s with slots := mkSlotRec tid k resv :: s.slots } =
        { created.foldl (fun st ck => deleteSlot st tid ck) s with
            slots := mkSlotRec tid k resv ::
              (created.foldl (fun st ck => deleteSlot st tid ck) s).slots } := by
  intro created
  induction created with
  | nil => intro s _; rfl
  | cons c cs ih =>
    intro s hne
    have hc : ¬(c = k) := hne c (List.mem_cons_self c cs)
    simp only [List.foldl_cons]
    rw [deleteSlot_cons_comm hc]
    exact ih (deleteSlot s tid c) (fun ck hm => hne ck (List.mem_cons_of_mem _ hm))

theorem deleteSlot_cons_fresh {s : Store} {tid k : String} {resv : Reservation}
    (hnone : getSlot s.slots tid k = none) :
    deleteSlot { s with slots := mkSlotRec tid k resv :: s.slots } tid k = s := by
  obtain ⟨t, sl, rs, cs⟩ := s
  have hall : sl.filter (fun r => ¬(r.table_id = tid ∧ r.slot_key = k)) = sl :=
    List.filter_eq_self.2 (fun r hr => decide_eq_true (getSlot_eq_none_iff.1 hnone r hr))
  simp only [deleteSlot, mkSlotRec, List.filter_cons]
  rw [if_neg (by simp), hall]

theorem save_occ_aux_fail (tid : String) (resv : Reservation) :
    ∀ (keys : List String) (s s0 : Store) (created : List String) (m : String) (s' : Store),
      created.foldl (fun st ck => deleteSlot st tid ck) s = s0 →
      (∀ ck ∈ created, (getSlot s.slots tid ck).isSome) →
      save_occupancy_aux tid resv keys s created = (false, m, s') →
      s' = s0 := by
  intro keys
  induction keys with
  | nil =>
    intro s s0 created m s' _ _ h
    simp [save_occupancy_aux] at h
  | cons k rest ih =>
    intro s s0 created m s' hfold hsome h
    simp only [save_occupancy_aux, putSlotNew, mkSlotRec] at h
    cases hg : getSlot s.slots tid k with
    | some it =>
      rw [hg] at h
      simp only at h
      cases h
      exact hfold
    | none =>
      rw [hg] at h
      simp only at h
      have hneanyk : ∀ ck ∈ created, ¬(ck = k) := by
        intro ck hm he
        have := hsome ck hm
        rw [he, hg] at this
        simp at this
      refine ih { s with slots := mkSlotRec tid k resv :: s.slots } s0 (created ++ [k]) m s' ?_ ?_ h
      · rw [List.foldl_append]
        rw [foldl_deleteSlot_cons_comm created s hneanyk]
        simp only [List.foldl_cons, List.foldl_nil]
        rw [deleteSlot_cons_fresh ?hfresh]
        · exact hfold
        case hfresh =>
          rw [getSlot_eq_none_iff]
          intro r hr
          exact getSlot_eq_none_iff.1 hg r (foldl_deleteSlot_sub tid created s r hr)
      · intro ck hm
        rcases List.mem_append.1 hm with hl | hr
        · exact getSlot_isSome_cons (hsome ck hl)
        · have hck : ck = k := by simpa using hr
          subst hck
          have hself : getSlot (mkSlotRec tid ck resv :: s.slots) tid ck =
              some (mkSlotRec tid ck resv) := getSlot_cons_self rfl rfl
          simp [hself]

theorem save_occ_fail {s : Store} {tid : String} {keys : List String} {resv : Reservation}
    {m : String} {s' : Store} (h : save_occupancy s tid keys resv = (false, m, s')) :
    s' = s :=
  save_occ_aux_fail tid resv keys s s [] m s' rfl (by simp) h

theorem save_occ_aux_frame (tid : String) (resv : Reservation) :
    ∀ (keys : List String) (s : Store) (created : List String) (b : Bool) (m : String) (s' : Store),
      save_occupancy_aux tid resv keys s created = (b, m, s') →
      s'.tables = s.tables ∧ s'.reservations = s.reservations ∧ s'.customers = s.customers := by
  intro keys
  induction keys with
  | nil =>
    intro s created b m s' h
    simp only [save_occupancy_aux] at h
    cases h
    exact ⟨rfl, rfl, rfl⟩
  | cons k rest ih =>
    intro s created b m s' h
    simp only [save_occupancy_aux, putSlotNew, mkSlotRec] at h
    cases hg : getSlot s.slots tid k with
    | some it =>
      rw [hg] at h
      simp only at h
      cases h
      exact foldl_deleteSlot_frame tid created s
    | none =>
      rw [hg] at h
      simp only at h
      simpa using ih { s with slots := mkSlotRec tid k resv :: s.slots } (created ++ [k]) b m s' h

theorem save_occ_aux_sub (tid : String) (resv : Reservation) :
    ∀ (keys : List String) (s : Store) (created : List String) (m : String) (s' : Store),
      save_occupancy_aux tid resv keys s created = (true, m, s') →
      ∀ r ∈ s.slots, r ∈ s'.slots := by
  intro keys
  induction keys with
  | nil =>
    intro s created m s' h
    simp only [save_occupancy_aux] at h
    cases h
    intro r hr
    exact hr
  | cons k rest ih =>
    intro s created m s' h
    simp only [save_occupancy_aux, putSlotNew, mkSlotRec] at h
    cases hg : getSlot s.slots tid k with
    | some it => rw [hg] at h; simp at h
    | none =>
      rw [hg] at h
      simp only at h
      intro r hr
      exact ih { s with slots := mkSlotRec tid k resv :: s.slots } (created ++ [k]) m s' h r
        (List.mem_cons_of_mem _ hr)

theorem save_occ_aux_slotsOk (tid : String) (resv : Reservation) :
    ∀ (keys : List String) (s : Store) (created : List String) (b : Bool) (m : String) (s' : Store),
      save_occupancy_aux tid resv keys s created = (b, m, s') →
      SlotsOk s.slots → SlotsOk s'.slots := by
  intro keys
  induction keys with
  | nil =>
    intro s created b m s' h hok
    simp only [save_occupancy_aux] at h
    cases h
    exact hok
  | cons k rest ih =>
    intro s created b m s' h hok
    simp only [save_occupancy_aux, putSlotNew, mkSlotRec] at h
    cases hg : getSlot s.slots tid k with
    | some it =>
      rw [hg] at h
      simp only at h
      cases h
      exact foldl_deleteSlot_slotsOk tid created s hok
    | none =>
      rw [hg] at h
      simp only at h
      exact ih { s with slots := mkSlotRec tid k resv :: s.slots } (created ++ [k]) b m s' h
        (slotsOk_cons hg hok)

/-! ## `_release_occupancy` lemmas -/

theorem release_frame (tid rid : String) :
    ∀ (keys : List String) (s : Store),
      (release_occupancy s tid keys rid).tables = s.tables ∧
      (release_occupancy s tid keys rid).reservations = s.reservations ∧
      (release_occupancy s tid keys rid).customers = s.customers := by
  intro keys
  induction keys with
  | nil => intro s; exact ⟨rfl, rfl, rfl⟩
  | cons k ks ih =>
    intro s
    simpa [release_occupancy, deleteSlotOwned] using ih (deleteSlotOwned s tid k rid)

theorem release_slotsOk (tid rid : String) :
    ∀ (keys : List String) (s : Store), SlotsOk s.slots →
      SlotsOk (release_occupancy s tid keys rid).slots := by
  intro keys
  induction keys with
  | nil => intro s h; exact h
  | cons k ks ih =>
    intro s h
    exact ih (deleteSlotOwned s tid k rid) (slotsOk_filter h)

theorem release_foreign (tid rid : String) :
    ∀ (keys : List String) (s : Store) (x : SlotRec),
      x ∈ s.slots → ¬(x.reservation_id = rid) →
      x ∈ (release_occupancy s tid keys rid).slots := by
  intro keys
  induction keys with
  | nil => intro s x hx _; exact hx
  | cons k ks ih =>
    intro s x hx hnrid
    refine ih (deleteSlotOwned s tid k rid) x ?_ hnrid
    simp only [deleteSlotOwned, List.mem_filter]
    refine ⟨hx, ?_⟩
    simp only [decide_eq_true_eq]
    intro hcontra
    exact hnrid hcontra.2.2

/-! ## Candidate-search lemmas -/

theorem mem_ite_or {c : Prop} [Decidable c] {l1 l2 : List α} {a : α}
    (h : a ∈ if c then l1 else l2) : a ∈ l1 ∨ a ∈ l2 := by
  split at h
  · exact Or.inl h
  · exact Or.inr h

theorem firstFree_mem {s : Store} {keys : List String} {rid : Option String} {t : Table} :
    ∀ {l : List Table}, firstFree s keys rid l = some t → t ∈ l := by
  intro l
  induction l with
  | nil => intro h; simp [firstFree] at h
  | cons x xs ih =>
    intro h
    simp only [firstFree] at h
    split at h
    · cases h; exact List.mem_cons_self _ _
    · exact List.mem_cons_of_mem _ (ih h)

/-- The table returned by `_find_table_for_reservation` is a catalog table whose
capacity range contains the party size. -/
theorem find_table_some {s : Store} {date time : String} {np : Int} {prefs : String}
    {dur : Int} {rid : Option String} {t : Table} {keys : List String}
    (hf : find_table_for_reservation s date time np prefs dur rid = some (some t, keys)) :
    t ∈ s.tables ∧ t.capacity_min ≤ np ∧ np ≤ t.capacity_max := by
  simp only [find_table_for_reservation] at hf
  cases hk : slot_keys date time dur with
  | none => rw [hk] at hf; simp at hf
  | some ks =>
    rw [hk] at hf
    simp only [Option.some.injEq, Prod.mk.injEq] at hf
    obtain ⟨hff, -⟩ := hf
    have hmem := firstFree_mem hff
    have hcand : t ∈ (active_tables s).filter
        (fun t => t.capacity_min ≤ np ∧ np ≤ t.capacity_max) := by
      revert hmem
      cases normalize_zone prefs with
      | none => exact fun h => h
      | some z =>
        intro hmem
        rcases mem_ite_or hmem with h | h
        · exact h
        · exact (List.mem_filter.1 h).1
    rw [List.mem_filter] at hcand
    obtain ⟨hat, hcap⟩ := hcand
    have hts : t ∈ s.tables := by
      have h1 : t ∈ s.tables.filter (fun t => t.is_active) := by
        have := mem_sortByLe.1 (by simpa [active_tables] using hat)
        exact this
      exact (List.mem_filter.1 h1).1
    simp only [decide_eq_true_eq] at hcap
    exact ⟨hts, hcap.1, hcap.2⟩

/-! ## `update_finish` lemmas -/

theorem uf_some {s : Store} {current merged : Reservation} {nk : List String} {rid : String}
    {r : OpResult} (h : update_finish s current merged nk rid = some r) :
    r.ok = true ∧ r.reservation = some merged ∧
    r.store.tables = s.tables ∧
    r.store.reservations = merged :: s.reservations.filter (fun x => ¬(x.id = merged.id)) ∧
    (SlotsOk s.slots → SlotsOk r.store.slots) ∧
    (∀ x ∈ s.slots, ¬(x.reservation_id = rid) → x ∈ r.store.slots) := by
  simp only [update_finish] at h
  split at h
  · exact absurd h (by simp)
  · rename_i s2 heq
    simp only [Option.some.injEq] at h
    subst h
    have hs2 : (s2.tables = s.tables ∧ s2.reservations = s.reservations) ∧
        (SlotsOk s.slots → SlotsOk s2.slots) ∧
        (∀ x ∈ s.slots, ¬(x.reservation_id = rid) → x ∈ s2.slots) := by
      split at heq
      · split at heq
        · exact absurd heq (by simp)
        · rename_i old_slots hsk
          simp only [Option.some.injEq] at heq
          subst heq
          refine ⟨⟨(release_frame _ _ _ _).1, (release_frame _ _ _ _).2.1⟩, ?_, ?_⟩
          · exact fun hok => release_slotsOk _ _ _ _ hok
          · exact fun x hx hnr => release_foreign _ _ _ _ x hx hnr
      · simp only [Option.some.injEq] at heq
        subst heq
        exact ⟨⟨rfl, rfl⟩, fun hok => hok, fun x hx _ => hx⟩
    refine ⟨rfl, rfl, ?_, ?_, ?_, ?_⟩
    · simp only [save_customer_lookup, putCust, putRes, deleteCust]
      split <;> exact hs2.1.1
    · simp only [save_customer_lookup, putCust, putRes, deleteCust]
      split <;> simp [hs2.1.2]
    · intro hok
      have hsl := hs2.2.1 hok
      simp only [save_customer_lookup, putCust, putRes, deleteCust]
      split <;> exact hsl
    · intro x hx hnr
      have hmem := hs2.2.2 x hx hnr
      simp only [save_customer_lookup, putCust, putRes, deleteCust]
      split <;> exact hmem

/-! ## Small filter helpers -/

theorem filter_id_self {l : List Reservation} {rid : String}
    (h : getRes l rid = none) : l.filter (fun x => ¬(x.id = rid)) = l :=
  List.filter_eq_self.2 fun r hr => decide_eq_true (getRes_eq_none_iff.1 h r hr)

theorem filter_cust_self {l : List CustomerEntry} {ph dt tm rid : String}
    (h : getCust l ph dt tm rid = none) :
    l.filter (fun x => ¬(x.phone = ph ∧ x.date = dt ∧ x.time = tm ∧ x.reservation_id = rid)) = l :=
  List.filter_eq_self.2 fun c hc => decide_eq_true (getCust_eq_none_iff.1 h c hc)

theorem filter_idem {l : List α} {p : α → Bool} : (l.filter p).filter p = l.filter p :=
  List.filter_eq_self.2 fun _ ha => (List.mem_filter.1 ha).2

/-! ## `create_reservation` case lemma -/

/-- Combined facts about any returning `create_reservation` call: the catalog is
untouched, slot-key uniqueness is preserved, capacity discipline of the
reservation list is preserved, and any failing call restores the store exactly
(given that the customer-index key it may touch was initially absent). -/
theorem create_props {s : Store} {nowMicro : Nat} {fid : String} {p : Payload} {res : OpResult}
    (h : create_reservation s nowMicro fid p = some res) :
    res.store.tables = s.tables ∧
    (SlotsOk s.slots → SlotsOk res.store.slots) ∧
    (CapOkL s.tables s.reservations → CapOkL s.tables res.store.reservations) ∧
    (res.ok = false →
      getCust s.customers p.phone p.date p.time (createResId fid p) = none →
      res.store = s) := by
  simp only [create_reservation] at h
  split at h
  · -- Calendar validation failed
    simp only [Option.some.injEq] at h
    subst h
    exact ⟨rfl, fun hk => hk, fun hc => hc, fun _ _ => rfl⟩
  · split at h
    · -- party size out of bounds
      simp only [Option.some.injEq] at h
      subst h
      exact ⟨rfl, fun hk => hk, fun hc => hc, fun _ _ => rfl⟩
    · rename_i hnum
      split at h
      · -- slot_keys raised: h : none = some res
        exact absurd h (by simp)
      · -- no table available
        simp only [Option.some.injEq] at h
        subst h
        exact ⟨rfl, fun hk => hk, fun hc => hc, fun _ _ => rfl⟩
      · -- a table was found
        rename_i table keys hfind
        split at h
        · -- reservation id already exists: store unchanged
          simp only [Option.some.injEq] at h
          subst h
          exact ⟨rfl, fun hk => hk, fun hc => hc, fun _ _ => rfl⟩
        · -- reservation record inserted
          rename_i s1 hput
          simp only [putResNew] at hput
          push_neg at hnum
          have hcards := find_table_some hfind
          cases hget : getRes s.reservations
              (createResId fid p) with
          | some r0 => rw [hget] at hput; simp at hput
          | none =>
            rw [hget] at hput
            simp only [Prod.mk.injEq] at hput
            obtain ⟨-, hs1⟩ := hput
            subst hs1
            split at h
            · -- active status: slots must be acquired
              rename_i hact
              split at h
              · -- occupancy committed
                rename_i m s3 hocc
                simp only [Option.some.injEq] at h
                subst h
                simp only
                have hframe := save_occ_aux_frame _ _ _ _ _ _ _ _ hocc
                simp only [save_customer_lookup, putCust] at hframe
                refine ⟨hframe.1, ?_, ?_, by simp⟩
                · intro hk
                  refine save_occ_aux_slotsOk _ _ _ _ _ _ _ _ hocc ?_
                  simpa [save_customer_lookup, putCust] using hk
                · intro hcap
                  rw [hframe.2.1]
                  intro r hr
                  simp only [List.mem_cons] at hr
                  rcases hr with hr | hr
                  · subst hr
                    refine ⟨⟨hnum.1, hnum.2⟩, fun _ _ => ?_⟩
                    exact ⟨table, hcards.1, rfl, hcards.2.1, hcards.2.2⟩
                  · exact hcap r hr
              · -- occupancy conflict: rollback
                rename_i m s3 hocc
                simp only [Option.some.injEq] at h
                subst h
                simp only
                have hs3 := save_occ_fail hocc
                subst hs3
                simp only [delete_customer_lookup, deleteCust, deleteRes,
                  save_customer_lookup, putCust, List.filter_cons]
                rw [if_neg (by simp), if_neg (by simp)]
                rw [filter_id_self hget, filter_idem]
                refine ⟨by trivial, fun hk => hk, fun hc => hc, fun _ hcust => ?_⟩
                obtain ⟨t, sl, rs, cs⟩ := s
                simp only at hcust ⊢
                rw [filter_cust_self hcust]
            · -- inactive status: no slots written
              simp only [Option.some.injEq] at h
              subst h
              simp only [save_customer_lookup, putCust]
              refine ⟨by trivial, fun hk => hk, ?_, by simp⟩
              intro hcap
              intro r hr
              simp only [List.mem_cons] at hr
              rcases hr with hr | hr
              · subst hr
                rename_i hnact
                refine ⟨⟨hnum.1, hnum.2⟩, fun hactr _ => absurd hactr (by simpa using hnact)⟩
              · exact hcap r hr

/-! ## `withDurationDefault` / `mergedBase` projections -/

theorem wdd_status (r : Reservation) : (withDurationDefault r).status = r.status := by
  unfold withDurationDefault; split <;> rfl

theorem wdd_num (r : Reservation) : (withDurationDefault r).num_people = r.num_people := by
  unfold withDurationDefault; split <;> rfl

theorem wdd_table (r : Reservation) : (withDurationDefault r).table_id = r.table_id := by
  unfold withDurationDefault; split <;> rfl

theorem wdd_date (r : Reservation) : (withDurationDefault r).date = r.date := by
  unfold withDurationDefault; split <;> rfl

theorem wdd_time (r : Reservation) : (withDurationDefault r).time = r.time := by
  unfold withDurationDefault; split <;> rfl

theorem mergedBase_table (c : Reservation) (rid : String) (u : Updates) :
    (mergedBase c rid u).table_id = c.table_id := rfl

/-! ## `update_reservation` case lemma -/

/-- Combined facts about any returning `update_reservation` call: the catalog is
untouched, slot-key uniqueness is preserved, capacity discipline is preserved,
every failing call leaves the store exactly as it was, and slot records owned by
other reservations survive the call. -/
theorem update_props {s : Store} {nowMicro : Nat} {rid : String} {u : Updates} {res : OpResult}
    (h : update_reservation s nowMicro rid u = some res) :
    res.store.tables = s.tables ∧
    (SlotsOk s.slots → SlotsOk res.store.slots) ∧
    (CapOkL s.tables s.reservations → CapOkL s.tables res.store.reservations) ∧
    (res.ok = false → res.store = s) ∧
    (∀ x ∈ s.slots, ¬(x.reservation_id = rid) → x ∈ res.store.slots) := by
  simp only [update_reservation] at h
  cases hcur : getRes s.reservations rid with
  | none =>
    rw [hcur] at h
    simp only [Option.some.injEq] at h
    subst h
    exact ⟨rfl, fun hk => hk, fun hc => hc, fun _ => rfl, fun x hx _ => hx⟩
  | some current =>
    rw [hcur] at h
    simp only at h
    split at h
    · -- invalid status
      simp only [Option.some.injEq] at h
      subst h
      exact ⟨rfl, fun hk => hk, fun hc => hc, fun _ => rfl, fun x hx _ => hx⟩
    · split at h
      · -- party size out of bounds
        simp only [Option.some.injEq] at h
        subst h
        exact ⟨rfl, fun hk => hk, fun hc => hc, fun _ => rfl, fun x hx _ => hx⟩
      · rename_i hvalid hnum
        push_neg at hnum
        split at h
        · -- merged date/time rejected
          simp only [Option.some.injEq] at h
          subst h
          exact ⟨rfl, fun hk => hk, fun hc => hc, fun _ => rfl, fun x hx _ => hx⟩
        · split at h
          · -- reallocation branch
            rename_i hcond
            split at h
            · -- slot_keys raised
              exact absurd h (by simp)
            · -- no table for the changes
              simp only [Option.some.injEq] at h
              subst h
              exact ⟨rfl, fun hk => hk, fun hc => hc, fun _ => rfl, fun x hx _ => hx⟩
            · -- table found
              rename_i table new_slot_keys hfind
              split at h
              · -- occupancy conflict: rollback restores the store
                rename_i m s3 hocc
                simp only [Option.some.injEq] at h
                subst h
                simp only
                have hs3 := save_occ_fail hocc
                subst hs3
                exact ⟨rfl, fun hk => hk, fun hc => hc, fun _ => rfl, fun x hx _ => hx⟩
              · -- occupancy committed, then finish
                rename_i m s1 hocc
                have hfacts := uf_some h
                have hframe := save_occ_aux_frame _ _ _ _ _ _ _ _ hocc
                have hcards := find_table_some hfind
                refine ⟨?_, ?_, ?_, ?_, ?_⟩
                · rw [hfacts.2.2.1, hframe.1]
                · intro hk
                  exact hfacts.2.2.2.2.1 (save_occ_aux_slotsOk _ _ _ _ _ _ _ _ hocc hk)
                · intro hcap
                  rw [hfacts.2.2.2.1, hframe.2.1]
                  intro r hr
                  simp only [List.mem_cons] at hr
                  rcases hr with hr | hr
                  · subst hr
                    constructor
                    · simpa [wdd_num] using hnum
                    · intro _ _
                      refine ⟨table, hcards.1, rfl, ?_, ?_⟩
                      · simpa [wdd_num] using hcards.2.1
                      · simpa [wdd_num] using hcards.2.2
                  · exact hcap r (List.mem_filter.1 hr).1
                · intro hf
                  rw [hfacts.1] at hf
                  simp at hf
                · intro x hx hnr
                  refine hfacts.2.2.2.2.2 x ?_ hnr
                  exact save_occ_aux_sub _ _ _ _ _ _ _ hocc x hx
          · -- no reallocation: straight to the finish
            rename_i hcond
            have hfacts := uf_some h
            have hcurmem := getRes_some hcur
            refine ⟨?_, ?_, ?_, ?_, ?_⟩
            · exact hfacts.2.2.1
            · exact fun hk => hfacts.2.2.2.2.1 hk
            · intro hcap
              rw [hfacts.2.2.2.1]
              intro r hr
              simp only [List.mem_cons] at hr
              rcases hr with hr | hr
              · subst hr
                constructor
                · simpa [wdd_num] using hnum
                · intro hact htid
                  push_neg at hcond
                  have hnreal := hcond (by simpa [wdd_status] using hact)
                  push_neg at hnreal
                  obtain ⟨hdate, htime, hnp, hpref, hstat⟩ := hnreal
                  have hcapc := (hcap current hcurmem.1).2
                  have hactc : isActiveStatus current.status = true := by
                    rw [hstat]; simpa [wdd_status] using hact
                  have htidc : ¬(current.table_id = "") := by
                    simpa [wdd_table, mergedBase_table] using htid
                  obtain ⟨t, htm, htt, hc1, hc2⟩ := hcapc hactc htidc
                  refine ⟨t, htm, ?_, ?_, ?_⟩
                  · rw [htt]
                    simp [wdd_table, mergedBase_table]
                  · rw [hnp] at hc1; exact hc1
                  · rw [hnp] at hc2; exact hc2
              · exact hcap r (List.mem_filter.1 hr).1
            · intro hf
              rw [hfacts.1] at hf
              simp at hf
            · exact fun x hx hnr => hfacts.2.2.2.2.2 x hx hnr

/-! ## Reachable store states -/

/-- Store states reachable from the freshly seeded store by any sequence of
`create_reservation`, `update_reservation` and `cancel_reservation` calls
(each call with its own clock value and generated id). -/
inductive Reachable : Store → Prop
  | init : Reachable initialStore
  | create (s : Store) (nowMicro : Nat) (freshId : String) (p : Payload) (r : OpResult) :
      Reachable s → create_reservation s nowMicro freshId p = some r → Reachable r.store
  | update (s : Store) (nowMicro : Nat) (rid : String) (u : Updates) (r : OpResult) :
      Reachable s → update_reservation s nowMicro rid u = some r → Reachable r.store
  | cancel (s : Store) (nowMicro : Nat) (rid : String) (r : OpResult) :
      Reachable s → cancel_reservation s nowMicro rid = some r → Reachable r.store

/-- The two store invariants hold in every reachable state. -/
theorem reachable_inv {s : Store} (h : Reachable s) :
    SlotsOk s.slots ∧ CapOkL s.tables s.reservations := by
  induction h with
  | init =>
    constructor
    · exact List.Pairwise.nil
    · intro r hr
      simp [initialStore] at hr
  | create s nowMicro freshId p r hs heq ih =>
    have hp := create_props heq
    refine ⟨hp.2.1 ih.1, ?_⟩
    rw [hp.1]
    exact hp.2.2.1 ih.2
  | update s nowMicro rid u r hs heq ih =>
    have hp := update_props heq
    refine ⟨hp.2.1 ih.1, ?_⟩
    rw [hp.1]
    exact hp.2.2.1 ih.2
  | cancel s nowMicro rid r hs heq ih =>
    rw [cancel_reservation] at heq
    have hp := update_props heq
    refine ⟨hp.2.1 ih.1, ?_⟩
    rw [hp.1]
    exact hp.2.2.1 ih.2

/-! ## `available_times` characterization -/

theorem available_times_aux_mem {s : Store} {nowMicro : Nat} {date : String} {np : Int}
    {zone : String} :
    ∀ (ts : List String) (L : List AvailEntry),
      available_times_aux s nowMicro date np zone ts = some L →
      ∀ e : AvailEntry, e ∈ L ↔
        (e.time ∈ ts ∧ (validate_date_time nowMicro date e.time).1 = true ∧
         ∃ tbl keys, find_table_for_reservation s date e.time np zone
             (reservation_duration np) none = some (some tbl, keys) ∧
           e.table_id = tbl.table_id ∧ e.zone = tbl.zone) := by
  intro ts
  induction ts with
  | nil =>
    intro L h e
    simp only [available_times_aux, Option.some.injEq] at h
    subst h
    simp
  | cons t rest ih =>
    intro L h e
    simp only [available_times_aux] at h
    split at h
    · rename_i hv
      rw [ih L h e]
      constructor
      · rintro ⟨hmem, hval, hrest⟩
        exact ⟨List.mem_cons_of_mem _ hmem, hval, hrest⟩
      · rintro ⟨hmem, hval, hrest⟩
        rcases List.mem_cons.1 hmem with he | hmem'
        · rw [he] at hval
          exact absurd hval hv
        · exact ⟨hmem', hval, hrest⟩
    · rename_i hv
      split at h
      · exact absurd h (by simp)
      · rename_i ks hfind
        rw [ih L h e]
        constructor
        · rintro ⟨hmem, hval, hrest⟩
          exact ⟨List.mem_cons_of_mem _ hmem, hval, hrest⟩
        · rintro ⟨hmem, hval, tbl, keys, hf, hrest⟩
          rcases List.mem_cons.1 hmem with he | hmem'
          · rw [he, hfind] at hf
            simp at hf
          · exact ⟨hmem', hval, tbl, keys, hf, hrest⟩
      · rename_i tbl ks hfind
        cases hrec : available_times_aux s nowMicro date np zone rest with
        | none => rw [hrec] at h; simp at h
        | some L' =>
          rw [hrec] at h
          simp only [Option.map, Option.some.injEq] at h
          subst h
          simp only [List.mem_cons]
          constructor
          · rintro (he | hmem)
            · subst he
              exact ⟨Or.inl rfl, by simpa using hv, tbl, ks, hfind, rfl, rfl⟩
            · have hfacts := (ih L' hrec e).1 hmem
              exact ⟨Or.inr hfacts.1, hfacts.2⟩
          · rintro ⟨hmem, hval, tbl', keys', hf, ht, hz⟩
            rcases hmem with he | hmem'
            · left
              rw [he, hfind] at hf
              simp only [Option.some.injEq, Prod.mk.injEq] at hf
              obtain ⟨htbl, -⟩ := hf
              subst htbl
              cases e
              simp_all
            · right
              exact (ih L' hrec e).2 ⟨hmem', hval, tbl', keys', hf, ht, hz⟩

/-! ## Claim C8 -/

/-- C8: cancelling an already-cancelled stored reservation succeeds again (the
update path finds the status unchanged and inactive, so nothing is released or
re-validated), while cancelling an unknown id returns the not-found error.  The
party-size bounds hold for every committed reservation (they are enforced on
both write paths), so they appear as hypotheses on the stored record. -/
theorem cancel_cancelled_idempotent_and_unknown_id_fails :
    (∀ (s : Store) (nowMicro : Nat) (rid : String) (r : Reservation),
      getRes s.reservations rid = some r → r.status = "cancelled" →
      1 ≤ r.num_people → r.num_people ≤ 12 →
      ∃ res : OpResult, cancel_reservation s nowMicro rid = some res ∧ res.ok = true) ∧
    (∀ (s : Store) (nowMicro : Nat) (rid : String),
      getRes s.reservations rid = none →
      cancel_reservation s nowMicro rid = some ⟨false, "No existe la reserva indicada", none, s⟩) := by
  constructor
  · intro s nowMicro rid r hget hst h1 h12
    simp only [cancel_reservation, update_reservation, hget]
    split
    · -- "invalid status" branch is unreachable: the merged status is "cancelled"
      rename_i hcond
      exact absurd (show isValidStatus "cancelled" = true by decide) hcond
    · split
      · -- party-size branch is unreachable: the merged size is the stored one
        rename_i hcond
        exact absurd hcond (by push_neg; exact ⟨h1, h12⟩)
      · split
        · -- the validator is skipped (inactive target, unchanged date/time)
          rename_i pr heq
          exfalso
          rw [if_neg ?hA] at heq
          case hA =>
            intro hA
            rcases hA with h' | h' | h'
            · rw [wdd_status] at h'
              exact absurd h' (show ¬(isActiveStatus "cancelled" = true) by decide)
            · exact h' (by rw [wdd_date]; exact rfl)
            · exact h' (by rw [wdd_time]; exact rfl)
          exact absurd heq (by simp)
        · split
          · -- no reallocation: the target status is inactive
            rename_i hcond
            exfalso
            have h' := hcond.1
            rw [wdd_status] at h'
            exact absurd h' (show ¬(isActiveStatus "cancelled" = true) by decide)
          · -- straight to the finish, which succeeds
            cases hfin : update_finish s r
                (withDurationDefault (mergedBase r rid { status := some "cancelled" })) [] rid with
            | none =>
              exfalso
              simp only [update_finish] at hfin
              split at hfin
              · rename_i heq
                split at heq
                · rename_i hC
                  exact absurd hC.1 (by rw [hst]; decide)
                · exact absurd heq (by simp)
              · exact absurd hfin (by simp)
            | some res => exact ⟨res, rfl, (uf_some hfin).1⟩
  · intro s nowMicro rid hget
    simp only [cancel_reservation, update_reservation, hget]

/-! ## Concrete scenario stores (Tuesday 2025-06-10, clock at epoch) -/

/-- Fallback result used only to name `Option.getD` extractions. -/
def fallbackResult : OpResult := ⟨false, "", none, initialStore⟩

/-- The §8 scenario payload: Tuesday 2025-06-10 at 20:00 for two people. -/
def payloadA : Payload :=
  { date := "2025-06-10", time := "20:00", num_people := 2,
    customer_name := "Ana", phone := "34600111222" }

/-- Result of creating `payloadA` in the freshly seeded store with id `RID1`. -/
def resultA : OpResult :=
  (create_reservation initialStore 0 "RID1" payloadA).getD fallbackResult

/-- The store holding that one pending reservation on table `S1` with slots
20:00, 20:30 and 21:00. -/
def storeA : Store := resultA.store

/-- The reservation record `create_reservation` committed for `payloadA`. -/
def rStoredA : Reservation :=
  { id := "RID1", date := "2025-06-10", time := "20:00", status := "pending",
    num_people := 2, customer_name := "Ana", phone := "34600111222",
    preferences := "", special_occasion := "", table_id := "S1",
    table_zone := "salon", duration_min := 90 }

/-- The 20:00 slot record held by `RID1`. -/
def recA : SlotRec := ⟨"S1", "2025-06-10#20:00", "RID1", "pending"⟩

/-- `storeA` is reachable: one `create_reservation` call away from the seeded store. -/
theorem reachStoreA : Reachable storeA :=
  Reachable.create initialStore 0 "RID1" payloadA resultA Reachable.init rfl

/-- An update assigning every caller-mutable field its currently stored value. -/
def noopUpdatesA : Updates :=
  { date := some "2025-06-10", time := some "20:00", num_people := some 2,
    customer_name := some "Ana", phone := some "34600111222", preferences := some "",
    special_occasion := some "", status := some "pending", duration_min := some 90 }

/-- Result of the no-op update on `storeA`. -/
def resultNoopA : OpResult :=
  (update_reservation storeA 0 "RID1" noopUpdatesA).getD fallbackResult

/-- The §8 overlap scenario: shift the start time by one slot. -/
def updTimeShiftA : Updates := { time := some "20:30" }

/-- Result of the overlapping time shift on `storeA`. -/
def resultShiftA : OpResult :=
  (update_reservation storeA 0 "RID1" updTimeShiftA).getD fallbackResult

/-- A two-slot shift, also overlapping the old span (used as a failing update). -/
def updTimeShiftB : Updates := { time := some "21:00" }

/-- Result of the two-slot shift on `storeA`. -/
def resultShiftB : OpResult :=
  (update_reservation storeA 0 "RID1" updTimeShiftB).getD fallbackResult

/-- A store in which another writer left a slot record at `S1`/20:30 that does
not count as occupied (inactive status), standing in for the state a concurrent
interleaving produces between `find_table` and the conditional insert. -/
def storeStale : Store :=
  { initialStore with slots := [⟨"S1", "2025-06-10#20:30", "OTHER", "cancelled"⟩] }

/-- Result of creating `payloadA` in `storeStale`: the 20:30 insert loses. -/
def resultStaleC : OpResult :=
  (create_reservation storeStale 0 "RID9" payloadA).getD fallbackResult

/-- Result of cancelling `RID1` in `storeA`. -/
def resultCancelA : OpResult :=
  (cancel_reservation storeA 0 "RID1").getD fallbackResult

/-- The store after that cancellation: record kept, all slots released. -/
def storeCancelledA : Store := resultCancelA.store

/-- The stored record after cancellation. -/
def rCancelledA : Reservation :=
  { rStoredA with status := "cancelled" }

/-- An update putting a cancelled reservation back to `pending`. -/
def updReviveA : Updates := { status := some "pending" }

/-- Result of reviving the cancelled `RID1`. -/
def resultReviveA : OpResult :=
  (update_reservation storeCancelledA 0 "RID1" updReviveA).getD fallbackResult

/-- Cancel while also changing the party size to 8. -/
def updCancelBig : Updates := { status := some "cancelled", num_people := some 8 }

/-- Result of that cancel-and-resize update on `storeA`. -/
def resultCancelBigA : OpResult :=
  (update_reservation storeA 0 "RID1" updCancelBig).getD fallbackResult

/-- The record it stores: still table `S1`, now 8 people. -/
def rBigA : Reservation :=
  { rStoredA with status := "cancelled", num_people := 8 }

/-- A slot record owned by a different reservation, on another table. -/
def foreignRecA : SlotRec := ⟨"S2", "2025-06-10#20:00", "OTHER", "pending"⟩

/-- `storeA` with the foreign record added. -/
def storeMixA : Store := { storeA with slots := foreignRecA :: storeA.slots }

/-- A plain cancellation update. -/
def updCancelOnly : Updates := { status := some "cancelled" }

/-- Result of cancelling `RID1` in the mixed store. -/
def resultMixA : OpResult :=
  (update_reservation storeMixA 0 "RID1" updCancelOnly).getD fallbackResult

/-- The answer of `available_times` for Friday 2025-06-13, two people, no zone. -/
def availFridayA : List AvailEntry :=
  (available_times initialStore 0 "2025-06-13" 2 "").getD []

/-! ## Claim theorems -/

/-- Claim C1: in every reachable store state, two slot records with active
status on the same `(table_id, time_unit_key)` belong to the same reservation —
each slot is owned by at most one active reservation at a time. -/
theorem no_double_booking (s : Store) (hs : Reachable s) (r1 r2 : SlotRec)
    (h1 : r1 ∈ s.slots) (h2 : r2 ∈ s.slots) (htid : r1.table_id = r2.table_id)
    (hkey : r1.slot_key = r2.slot_key) (ha1 : isActiveStatus r1.status = true)
    (ha2 : isActiveStatus r2.status = true) :
    r1.reservation_id = r2.reservation_id := by
  have hok := (reachable_inv hs).1
  by_cases heq : r1 = r2
  · rw [heq]
  · exfalso
    have hsym : Symmetric (fun a b : SlotRec =>
        ¬(a.table_id = b.table_id ∧ a.slot_key = b.slot_key)) := by
      intro a b hab hba
      exact hab ⟨hba.1.symm, hba.2.symm⟩
    exact List.Pairwise.forall hsym hok h1 h2 heq ⟨htid, hkey⟩

/-- Witness for C1 at the concrete reachable store `storeA`. -/
theorem no_double_booking_witness :
    Reachable storeA ∧ recA ∈ storeA.slots ∧ isActiveStatus recA.status = true ∧
    recA.reservation_id = recA.reservation_id :=
  ⟨reachStoreA, by decide, by decide,
    no_double_booking storeA reachStoreA recA recA (by decide) (by decide) rfl rfl
      (by decide) (by decide)⟩

/-- Claim C2 (evidence of the code bug): an update that assigns every field its
stored value succeeds, keeps `table_id`/`table_zone`, but deletes every slot
record the reservation held — the release step runs with an empty keep set
because no reallocation computed new slot keys. -/
theorem noop_update_releases_all_slots :
    getRes storeA.reservations "RID1" = some rStoredA ∧
    noopUpdatesA =
      { date := some rStoredA.date, time := some rStoredA.time,
        num_people := some rStoredA.num_people, customer_name := some rStoredA.customer_name,
        phone := some rStoredA.phone, preferences := some rStoredA.preferences,
        special_occasion := some rStoredA.special_occasion, status := some rStoredA.status,
        duration_min := some rStoredA.duration_min } ∧
    storeA.slots = [⟨"S1", "2025-06-10#21:00", "RID1", "pending"⟩,
      ⟨"S1", "2025-06-10#20:30", "RID1", "pending"⟩,
      ⟨"S1", "2025-06-10#20:00", "RID1", "pending"⟩] ∧
    update_reservation storeA 0 "RID1" noopUpdatesA = some resultNoopA ∧
    resultNoopA.ok = true ∧
    (getRes resultNoopA.store.reservations "RID1").map
      (fun r => (r.table_id, r.table_zone, r.status)) = some ("S1", "salon", "pending") ∧
    resultNoopA.store.slots = [] :=
  ⟨rfl, rfl, rfl, rfl, rfl, rfl, rfl⟩

/-- Claim C3 (evidence of the code bug): shifting `RID1` from 20:00 to 20:30
picks the same table `S1`, but the insert-only condition on the overlapping
20:30 slot (already owned by `RID1` itself) makes the update fail with a
conflict instead of keeping the overlap; the store is left unchanged. -/
theorem overlap_shift_update_conflicts :
    getRes storeA.reservations "RID1" = some rStoredA ∧
    rStoredA.table_id = "S1" ∧ rStoredA.time = "20:00" ∧ rStoredA.duration_min = 90 ∧
    (find_table_for_reservation storeA "2025-06-10" "20:30" 2 "" 90 (some "RID1")).map
      (fun pr => pr.1.map Table.table_id) = some (some "S1") ∧
    update_reservation storeA 0 "RID1" updTimeShiftA = some resultShiftA ∧
    resultShiftA.ok = false ∧
    resultShiftA.msg = slotConflictMsg "2025-06-10#20:30" ∧
    resultShiftA.store = storeA :=
  ⟨rfl, rfl, rfl, rfl, rfl, rfl, rfl, rfl, rfl⟩

/-- Claim C4: when a slot-key conditional insert fails during
`create_reservation`, the call fails and the store is exactly as before the
call — previously acquired slots, the reservation record and the customer-index
entry are all rolled back, and no other table is tried.  The concrete part
exhibits the conflict (a record at `S1`/20:30 that `find_table` does not count
as occupied but that blocks the insert). -/
theorem create_slot_conflict_rolls_back :
    (∀ (s : Store) (nowMicro : Nat) (freshId : String) (p : Payload) (res : OpResult),
      create_reservation s nowMicro freshId p = some res → res.ok = false →
      getCust s.customers p.phone p.date p.time (createResId freshId p) = none →
      res.store = s) ∧
    (create_reservation storeStale 0 "RID9" payloadA = some resultStaleC ∧
     resultStaleC.ok = false ∧
     resultStaleC.msg = slotConflictMsg "2025-06-10#20:30" ∧
     resultStaleC.store = storeStale) := by
  constructor
  · intro s nowMicro freshId p res h hf hc
    exact (create_props h).2.2.2 hf hc
  · exact ⟨rfl, rfl, rfl, rfl⟩

/-- Witness for C4 at the concrete conflicting store. -/
theorem create_slot_conflict_rolls_back_witness :
    create_reservation storeStale 0 "RID9" payloadA = some resultStaleC ∧
    resultStaleC.ok = false ∧
    getCust storeStale.customers payloadA.phone payloadA.date payloadA.time
      (createResId "RID9" payloadA) = none ∧
    resultStaleC.store = storeStale :=
  ⟨rfl, rfl, rfl,
    create_slot_conflict_rolls_back.1 storeStale 0 "RID9" payloadA resultStaleC rfl rfl rfl⟩

/-- Claim C5: every failing `update_reservation` call returns with the store
exactly as it was — in particular a failed acquisition of the new slot set
never releases any old slot record (old slots are only released after a
successful acquisition). -/
theorem update_failure_leaves_store_intact :
    ∀ (s : Store) (nowMicro : Nat) (rid : String) (u : Updates) (res : OpResult),
      update_reservation s nowMicro rid u = some res → res.ok = false →
      res.store = s :=
  fun _ _ _ _ _ h hf => (update_props h).2.2.2.1 hf

/-- Witness for C5: the failing two-slot shift leaves `storeA` intact. -/
theorem update_failure_leaves_store_intact_witness :
    update_reservation storeA 0 "RID1" updTimeShiftB = some resultShiftB ∧
    resultShiftB.ok = false ∧ resultShiftB.store = storeA :=
  ⟨rfl, rfl,
    update_failure_leaves_store_intact storeA 0 "RID1" updTimeShiftB resultShiftB rfl rfl⟩

/-- Claim C6 counterexample: a cancelled reservation is moved back to `pending`
by a plain status update — `cancelled` is not terminal in this code. -/
theorem cancelled_reservation_resurrected :
    getRes storeCancelledA.reservations "RID1" = some rCancelledA ∧
    rCancelledA.status = "cancelled" ∧
    update_reservation storeCancelledA 0 "RID1" updReviveA = some resultReviveA ∧
    resultReviveA.ok = true ∧
    (getRes resultReviveA.store.reservations "RID1").map Reservation.status =
      some "pending" :=
  ⟨rfl, rfl, rfl, rfl, rfl⟩

/-- Claim C6 (amended): `update_reservation` may resurrect a cancelled
reservation into an active status; when it does, it runs the full
reallocation path — `find_table` plus slot acquisition — so the revived
reservation again owns slot records. -/
theorem cancelled_resurrection_reacquires_slots :
    resultReviveA.ok = true ∧
    resultReviveA.reservation.map (fun r => (r.status, r.table_id)) =
      some ("pending", "S1") ∧
    getSlot resultReviveA.store.slots "S1" "2025-06-10#20:00" =
      some ⟨"S1", "2025-06-10#20:00", "RID1", "pending"⟩ ∧
    getSlot resultReviveA.store.slots "S1" "2025-06-10#20:30" =
      some ⟨"S1", "2025-06-10#20:30", "RID1", "pending"⟩ ∧
    getSlot resultReviveA.store.slots "S1" "2025-06-10#21:00" =
      some ⟨"S1", "2025-06-10#21:00", "RID1", "pending"⟩ :=
  ⟨rfl, rfl, rfl, rfl, rfl⟩

/-- Claim C7 counterexample: on Friday 2025-06-13 the time 17:00 passes the
Calendar validator and `find_table` resolves table `S1` for it, yet
`available_times` never returns it — the enumeration is a fixed list that does
not cover the Friday/Saturday (or Sunday) opening windows. -/
theorem available_times_misses_open_friday_time :
    available_times initialStore 0 "2025-06-13" 2 "" = some availFridayA ∧
    (validate_date_time 0 "2025-06-13" "17:00").1 = true ∧
    (find_table_for_reservation initialStore "2025-06-13" "17:00" 2 ""
        (reservation_duration 2) none).map
      (fun pr => pr.1.map Table.table_id) = some (some "S1") ∧
    (∀ e ∈ availFridayA, ¬(e.time = "17:00")) :=
  ⟨rfl, rfl, rfl, by decide⟩

/-- Claim C7 (amended): `available_times` returns exactly the entries of its
fixed candidate list (13:00–16:00 and 20:00–23:30 at 30-minute steps) that pass
the Calendar validator and for which the create-path `find_table` check (with
the default duration and no exclusion) resolves a table, paired with that
table; it performs no writes (it is a pure function of the store). -/
theorem available_times_exactly_fixed_list_feasible :
    ∀ (s : Store) (nowMicro : Nat) (date : String) (np : Int) (zone : String)
      (L : List AvailEntry),
      available_times s nowMicro date np zone = some L →
      ∀ e : AvailEntry, e ∈ L ↔
        (e.time ∈ availableTimesList ∧
         (validate_date_time nowMicro date e.time).1 = true ∧
         ∃ tbl keys, find_table_for_reservation s date e.time np zone
             (reservation_duration np) none = some (some tbl, keys) ∧
           e.table_id = tbl.table_id ∧ e.zone = tbl.zone) :=
  fun _ _ _ _ _ L h e => available_times_aux_mem availableTimesList L h e

/-- Witness for the amended C7 at the Friday query. -/
theorem available_times_exactly_fixed_list_feasible_witness :
    available_times initialStore 0 "2025-06-13" 2 "" = some availFridayA ∧
    ((⟨"13:00", "S1", "salon"⟩ : AvailEntry) ∈ availFridayA ↔
      ((⟨"13:00", "S1", "salon"⟩ : AvailEntry).time ∈ availableTimesList ∧
       (validate_date_time 0 "2025-06-13"
          (⟨"13:00", "S1", "salon"⟩ : AvailEntry).time).1 = true ∧
       ∃ tbl keys, find_table_for_reservation initialStore "2025-06-13"
           (⟨"13:00", "S1", "salon"⟩ : AvailEntry).time 2 ""
           (reservation_duration 2) none = some (some tbl, keys) ∧
         (⟨"13:00", "S1", "salon"⟩ : AvailEntry).table_id = tbl.table_id ∧
         (⟨"13:00", "S1", "salon"⟩ : AvailEntry).zone = tbl.zone)) :=
  ⟨rfl, available_times_exactly_fixed_list_feasible initialStore 0 "2025-06-13" 2 ""
      availFridayA rfl ⟨"13:00", "S1", "salon"⟩⟩

/-- Witness for C8 at the cancelled store, plus the unknown-id case. -/
theorem cancel_cancelled_idempotent_and_unknown_id_fails_witness :
    getRes storeCancelledA.reservations "RID1" = some rCancelledA ∧
    rCancelledA.status = "cancelled" ∧
    1 ≤ rCancelledA.num_people ∧ rCancelledA.num_people ≤ 12 ∧
    (∃ res : OpResult, cancel_reservation storeCancelledA 0 "RID1" = some res ∧
      res.ok = true) ∧
    getRes storeCancelledA.reservations "ZZZ" = none ∧
    cancel_reservation storeCancelledA 0 "ZZZ" =
      some ⟨false, "No existe la reserva indicada", none, storeCancelledA⟩ :=
  ⟨rfl, rfl, by decide, by decide,
    cancel_cancelled_idempotent_and_unknown_id_fails.1 storeCancelledA 0 "RID1"
      rCancelledA rfl rfl (by decide) (by decide),
    rfl,
    cancel_cancelled_idempotent_and_unknown_id_fails.2 storeCancelledA 0 "ZZZ" rfl⟩

/-- Claim C9 counterexample: cancelling `RID1` while resizing to 8 people
succeeds and stores a reservation that still carries table `S1`, whose capacity
range is 1–2 — capacity containment fails for this committed reservation. -/
theorem cancel_with_resize_breaks_capacity :
    update_reservation storeA 0 "RID1" updCancelBig = some resultCancelBigA ∧
    resultCancelBigA.ok = true ∧
    getRes resultCancelBigA.store.reservations "RID1" = some rBigA ∧
    rBigA.table_id = "S1" ∧ rBigA.num_people = 8 ∧
    (∀ t ∈ resultCancelBigA.store.tables, t.table_id = "S1" →
      ¬(rBigA.num_people ≤ t.capacity_max)) :=
  ⟨rfl, rfl, rfl, rfl, rfl, by decide⟩

/-- Claim C9 (amended): in every reachable state, every committed reservation
has a party size within the validated 1–12 bounds, and every one with an
active status and an assigned table sits at a catalog table whose capacity
range contains the party size.  (A cancelled reservation can keep a stale
table assignment outside its new size, as the counterexample shows.) -/
theorem capacity_containment_of_active (s : Store) (hs : Reachable s)
    (r : Reservation) (hr : r ∈ s.reservations)
    (hact : isActiveStatus r.status = true) (htid : ¬(r.table_id = "")) :
    (1 ≤ r.num_people ∧ r.num_people ≤ 12) ∧
    ∃ t ∈ s.tables, t.table_id = r.table_id ∧
      t.capacity_min ≤ r.num_people ∧ r.num_people ≤ t.capacity_max := by
  have hc := (reachable_inv hs).2 r hr
  exact ⟨hc.1, hc.2 hact htid⟩

/-- Witness for the amended C9 at `storeA`. -/
theorem capacity_containment_of_active_witness :
    Reachable storeA ∧ rStoredA ∈ storeA.reservations ∧
    isActiveStatus rStoredA.status = true ∧ ¬(rStoredA.table_id = "") ∧
    ((1 ≤ rStoredA.num_people ∧ rStoredA.num_people ≤ 12) ∧
     ∃ t ∈ storeA.tables, t.table_id = rStoredA.table_id ∧
       t.capacity_min ≤ rStoredA.num_people ∧ rStoredA.num_people ≤ t.capacity_max) :=
  ⟨reachStoreA, by decide, by decide, by decide,
    capacity_containment_of_active storeA reachStoreA rStoredA (by decide) (by decide)
      (by decide)⟩

/-- Claim C10: `_release_occupancy` deletes only slot records whose
`reservation_id` matches the releasing reservation, and consequently no
`update_reservation` (or `cancel_reservation`, which is the same call) ever
removes a slot record owned by a different reservation. -/
theorem release_is_ownership_guarded :
    (∀ (s : Store) (tid : String) (keys : List String) (rid : String) (x : SlotRec),
      x ∈ s.slots → ¬(x.reservation_id = rid) →
      x ∈ (release_occupancy s tid keys rid).slots) ∧
    (∀ (s : Store) (nowMicro : Nat) (rid : String) (u : Updates) (res : OpResult),
      update_reservation s nowMicro rid u = some res →
      ∀ x ∈ s.slots, ¬(x.reservation_id = rid) → x ∈ res.store.slots) :=
  ⟨fun s tid keys rid x hx hnr => release_foreign tid rid keys s x hx hnr,
   fun _ _ _ _ _ h x hx hnr => (update_props h).2.2.2.2 x hx hnr⟩

/-- Witness for C10: cancelling `RID1` leaves the foreign record in place. -/
theorem release_is_ownership_guarded_witness :
    foreignRecA ∈ storeMixA.slots ∧ ¬(foreignRecA.reservation_id = "RID1") ∧
    update_reservation storeMixA 0 "RID1" updCancelOnly = some resultMixA ∧
    foreignRecA ∈ resultMixA.store.slots :=
  ⟨by decide, by decide, rfl,
    release_is_ownership_guarded.2 storeMixA 0 "RID1" updCancelOnly resultMixA rfl
      foreignRecA (by decide) (by decide)⟩

end ReservAI
